import Mathlib

/-!
Verification of the Cloudflare Vectorize client utilities
(`src/utils/CloudflareVectorizeUtils.ts`) against their natural-language
specification.

The TypeScript code is shallowly embedded: JavaScript runtime values that
flow through the validators, the formatter and the request executor are
modelled by an inductive `Json` type (numbers as rationals — the claims
never depend on floating-point rounding), thrown `Error`/`NodeOperationError`
values by `Except String` carrying the error message, and the HTTP transport
by an explicit `TransportOutcome` argument: each operation is split into the
pure request-construction part (validation plus URL/method/body assembly)
and the pure response-mapping part, exactly as the source separates them
around the single `httpRequestWithAuthentication` call.
-/

/-- Embedding of JavaScript runtime values (the JSON fragment the client
manipulates). Objects are insertion-ordered association lists, as in JS. -/
inductive Json where
  | null : Json
  | bool : Bool → Json
  | num : Rat → Json
  | str : String → Json
  | arr : List Json → Json
  | obj : List (String × Json) → Json

/-- JS property read `x.k`: defined on objects, `undefined` (here `none`)
on every other shape the code reads fields from. -/
def Json.getField : Json → String → Option Json
  | Json.obj fields, k => fields.lookup k
  | _, _ => none

/-- JS truthiness: `null`, `false`, `0`, and `""` are falsy; arrays and
objects are always truthy. -/
def Json.truthy : Json → Bool
  | Json.null => false
  | Json.bool b => b
  | Json.num q => if q = 0 then false else true
  | Json.str s => if s = "" then false else true
  | Json.arr _ => true
  | Json.obj _ => true

/-- Truthiness of a possibly-absent property (`undefined` is falsy). -/
def truthyOpt : Option Json → Bool
  | none => false
  | some j => j.truthy

/-- `Array.isArray`. -/
def Json.isArray : Json → Bool
  | Json.arr _ => true
  | _ => false

/-- Model of JS number-to-string coercion. The claims never stringify a
number (all ids in scope are strings), so only totality matters here;
exact float formatting is out of scope of the rational embedding. -/
def jsNumToString (q : Rat) : String :=
  if q.den = 1 then toString q.num else toString q.num ++ "/" ++ toString q.den

mutual

/-- JS string coercion `String(x)` for the value shapes in the model. -/
def jsToStr : Json → String
  | Json.null => "null"
  | Json.bool b => if b then "true" else "false"
  | Json.num q => jsNumToString q
  | Json.str s => s
  | Json.arr l => String.intercalate "," (jsToStrJoinList l)
  | Json.obj _ => "[object Object]"

/-- Element coercion inside `Array.prototype.join`: `null` elements become
the empty string. -/
def jsToStrJoinList : List Json → List String
  | [] => []
  | Json.null :: js => "" :: jsToStrJoinList js
  | j :: js => jsToStr j :: jsToStrJoinList js

end

/-- JS template-literal interpolation of a possibly-absent property
(`undefined` prints as the word undefined). -/
def jsTemplate : Option Json → String
  | none => "undefined"
  | some j => jsToStr j

/-- Character class `[a-z0-9]` of the index-name pattern. -/
def isIndexNameChar (c : Char) : Bool :=
  ('a' ≤ c && c ≤ 'z') || ('0' ≤ c && c ≤ '9')

/-- Character class `[a-z0-9-]` of the index-name pattern. -/
def isIndexNameMid (c : Char) : Bool :=
  isIndexNameChar c || c = '-'

/-- Tail of the pattern: all characters but the last from `[a-z0-9-]`,
the last from `[a-z0-9]`. -/
def indexPatternTail : List Char → Bool
  | [] => false
  | [c] => isIndexNameChar c
  | c :: cs => isIndexNameMid c && indexPatternTail cs

/-- The regular expression `^[a-z0-9][a-z0-9-]*[a-z0-9]$` from
`validateIndexName` (it matches only strings of length at least two).
Stated over codepoints: since every class character is ASCII, a string
matches per UTF-16 code unit exactly when it matches per codepoint — an
astral codepoint contributes two surrogate units, neither in any class,
and fails either way. -/
def matchesIndexNamePattern (s : String) : Bool :=
  match s.data with
  | [] => false
  | c :: cs => isIndexNameChar c && indexPatternTail cs

/-- UTF-16 length of one character, as JS counts it: one code unit below
U+10000, a surrogate pair (two units) at and above it. -/
def charUtf16Len (c : Char) : Nat :=
  if c.toNat < 65536 then 1 else 2

/-- JS `String.prototype.length`: the number of UTF-16 code units. -/
def utf16Length (s : String) : Nat :=
  (s.data.map charUtf16Len).sum

/-- `CloudflareVectorizeUtils.validateIndexName`: empty-string check, then
the 63-character cap, then the pattern check — which is skipped whenever
the name has JS length (UTF-16 code units) at most one. -/
def validateIndexName (indexName : String) : Except String Unit :=
  if indexName.data = [] then
    Except.error "Index name is required and must be a string"
  else if utf16Length indexName > 63 then
    Except.error "Index name must be 63 characters or less"
  else if matchesIndexNamePattern indexName = false ∧ utf16Length indexName > 1 then
    Except.error "Index name must contain only lowercase letters, numbers, and hyphens, and cannot start or end with a hyphen"
  else
    Except.ok ()

/-- Whether an `Except` computation succeeded. -/
def exceptIsOk {ε α : Type} : Except ε α → Bool
  | Except.ok _ => true
  | Except.error _ => false

/-- Connection configuration (`VectorizeConnectionConfig`). -/
structure ConnectionConfig where
  accountId : String
  apiToken : String
  apiEndpoint : String

/-- The outgoing HTTP request assembled by `executeRequest` (the
`httpOptions` object handed to the transport). -/
structure HttpRequestSpec where
  url : String
  method : String
  authorization : String
  contentType : String
  body : Option Json

/-- URL, header and body assembly at the top of `executeRequest`. -/
def buildRequest (config : ConnectionConfig) (endpoint : String) (method : String)
    (body : Option Json) : HttpRequestSpec :=
  { url := config.apiEndpoint ++ "/accounts/" ++ config.accountId ++ "/vectorize/v2/" ++ endpoint
    method := method
    authorization := "Bearer " ++ config.apiToken
    contentType := "application/json"
    body := body }

/-- One entry of `errors.map((error) => error.message)` as stringified by
the subsequent `.join`: absent or null messages join as the empty string. -/
def messagePart (e : Json) : String :=
  match e.getField "message" with
  | none => ""
  | some Json.null => ""
  | some j => jsToStr j

/-- `errors.map((error) => error.message).join(', ')`. -/
def concatMessages (l : List Json) : String :=
  String.intercalate ", " (l.map messagePart)

/-- The list behind `response.errors || []`: a falsy or absent `errors`
field yields the empty list. A truthy non-array `errors` would make the
JS `.map` itself throw before any `NodeOperationError` is built; the
envelope contract (`VectorizeApiError[]`) rules that shape out, and the
model maps it to the empty list. -/
def errorsArray (response : Json) : List Json :=
  match response.getField "errors" with
  | some (Json.arr l) => l
  | _ => []

/-- Envelope mapping inside `executeRequest`'s `try` block: a strict
`success === false` raises `Cloudflare API error: ` with the joined error
messages; otherwise `response.result || response` is returned — the raw
response body whenever `result` is absent or JS-falsy. -/
def mapEnvelope (response : Json) : Except String Json :=
  match response.getField "success" with
  | some (Json.bool false) =>
      Except.error ("Cloudflare API error: " ++ concatMessages (errorsArray response))
  | _ =>
      match response.getField "result" with
      | some r => if r.truthy then Except.ok r else Except.ok response
      | none => Except.ok response

/-- What the transport produced: a parsed 2xx body, an HTTP error carrying
an optional parsed body and the underlying error message (a zero status
models a falsy `error.response?.status`), or a lower-level failure. -/
inductive TransportOutcome where
  | response : Json → TransportOutcome
  | httpError : Nat → Option Json → String → TransportOutcome
  | failure : String → TransportOutcome

/-- The HTTP-error message assembly of `executeRequest`'s catch block:
a non-empty structured `errors` array wins, then a truthy `message`
field, then the bare `HTTP {status} error` text. -/
def httpErrorMessage (status : Nat) (data : Option Json) : String :=
  match data with
  | none => "HTTP " ++ toString status ++ " error"
  | some d =>
    match d.getField "errors" with
    | some (Json.arr (e :: es)) => "API error: " ++ concatMessages (e :: es)
    | _ =>
      match d.getField "message" with
      | some m =>
          if m.truthy then "API error: " ++ jsToStr m
          else "HTTP " ++ toString status ++ " error"
      | none => "HTTP " ++ toString status ++ " error"

/-- Response/error mapping of `executeRequest` as a function of the
transport outcome (the only part of the call after the network). -/
def executeRequestOutcome (outcome : TransportOutcome) : Except String Json :=
  match outcome with
  | TransportOutcome.response body => mapEnvelope body
  | TransportOutcome.httpError status data msg =>
      if status = 0 then Except.error ("Request failed: " ++ msg)
      else Except.error (httpErrorMessage status data)
  | TransportOutcome.failure msg => Except.error ("Request failed: " ++ msg)

/-- `CloudflareVectorizeUtils.executeRequest`, split around the network
call: the assembled request and the mapped result of the given transport
outcome. -/
def executeRequest (config : ConnectionConfig) (endpoint : String) (method : String)
    (body : Option Json) (outcome : TransportOutcome) :
    HttpRequestSpec × Except String Json :=
  (buildRequest config endpoint method body, executeRequestOutcome outcome)

/-- Pre-network part of `CloudflareVectorizeUtils.getIndex`: name
validation, then a GET to `indexes/{name}`. -/
def getIndexRequest (config : ConnectionConfig) (indexName : String) :
    Except String HttpRequestSpec :=
  match validateIndexName indexName with
  | Except.error e => Except.error e
  | Except.ok _ => Except.ok (buildRequest config ("indexes/" ++ indexName) "GET" none)

/-- `CloudflareVectorizeUtils.getIndex` end to end: validation, then the
response mapping of `executeRequest` on the transport outcome. -/
def getIndex (config : ConnectionConfig) (indexName : String)
    (outcome : TransportOutcome) : Except String Json :=
  match getIndexRequest config indexName with
  | Except.error e => Except.error e
  | Except.ok _ => executeRequestOutcome outcome

/-- `CloudflareVectorizeUtils.describeIndex` (request part): the source
body is exactly `return this.getIndex(...)`. -/
def describeIndexRequest (config : ConnectionConfig) (indexName : String) :
    Except String HttpRequestSpec :=
  getIndexRequest config indexName

/-- `CloudflareVectorizeUtils.describeIndex` end to end: delegates to
`getIndex` unchanged. -/
def describeIndex (config : ConnectionConfig) (indexName : String)
    (outcome : TransportOutcome) : Except String Json :=
  getIndex config indexName outcome

/-- Trailing id check of the per-vector loop in `validateVectorDimensions`:
`!vector.id || typeof vector.id !== 'string'` — only a non-empty string
id passes. -/
def vectorIdCheck (vector : Json) : Except String Unit :=
  match vector.getField "id" with
  | some (Json.str s) =>
      if s = "" then Except.error "All vectors must have a valid string ID"
      else Except.ok ()
  | _ => Except.error "All vectors must have a valid string ID"

/-- One iteration of `CloudflareVectorizeUtils.validateVectorDimensions`:
the `values` field must be a (truthy) array — element types are never
inspected, and the `Float32Array`/`Float64Array` branches of the source
have no distinct JSON shape — then, only when `expectedDimensions` is
supplied and non-zero (the source guards with JS truthiness), the length
comparison, and last the id check. -/
def validateVector (expectedDimensions : Option Nat) (vector : Json) :
    Except String Unit :=
  match vector.getField "values" with
  | some (Json.arr vals) =>
      (match expectedDimensions with
       | some d =>
          if d = 0 then vectorIdCheck vector
          else if vals.length = d then vectorIdCheck vector
          else Except.error ("Vector " ++ jsTemplate (vector.getField "id") ++ " has "
            ++ toString vals.length ++ " dimensions, expected " ++ toString d)
       | none => vectorIdCheck vector)
  | _ => Except.error ("Vector " ++ jsTemplate (vector.getField "id")
      ++ " must have a \x27values\x27 array")

/-- `CloudflareVectorizeUtils.validateVectorDimensions`: the per-vector
loop, stopping at the first thrown error. -/
def validateVectorDimensions (vectors : List Json) (expectedDimensions : Option Nat) :
    Except String Unit :=
  match vectors with
  | [] => Except.ok ()
  | v :: vs =>
    match validateVector expectedDimensions v with
    | Except.error e => Except.error e
    | Except.ok _ => validateVectorDimensions vs expectedDimensions

/-- Pre-network part of `CloudflareVectorizeUtils.insertVectors`: name
validation, vector validation — the source passes no `expectedDimensions`
argument — then a POST of `{vectors}` to `indexes/{name}/insert`. -/
def insertVectorsRequest (config : ConnectionConfig) (indexName : String)
    (vectors : List Json) : Except String HttpRequestSpec :=
  match validateIndexName indexName with
  | Except.error e => Except.error e
  | Except.ok _ =>
    match validateVectorDimensions vectors none with
    | Except.error e => Except.error e
    | Except.ok _ =>
        Except.ok (buildRequest config ("indexes/" ++ indexName ++ "/insert") "POST"
          (some (Json.obj [("vectors", Json.arr vectors)])))

/-- `CloudflareVectorizeUtils.insertVectors` end to end. -/
def insertVectors (config : ConnectionConfig) (indexName : String)
    (vectors : List Json) (outcome : TransportOutcome) : Except String Json :=
  match insertVectorsRequest config indexName vectors with
  | Except.error e => Except.error e
  | Except.ok _ => executeRequestOutcome outcome

/-- JS object-spread update `{...fields, k: v}`: an existing key keeps its
position and takes the new value, a fresh key is appended. -/
def setField (fields : List (String × Json)) (k : String) (v : Json) :
    List (String × Json) :=
  match fields with
  | [] => [(k, v)]
  | (k0, v0) :: rest =>
      if k0 = k then (k, v) :: setField rest k v
      else (k0, v0) :: setField rest k v

/-- Pre-network part of `CloudflareVectorizeUtils.queryVectorById`: name
validation, the non-empty string id check, then a POST to
`indexes/{name}/query` whose body is the request with the id substituted
into the `vector` field — the API has no separate query-by-id endpoint. -/
def queryVectorByIdRequest (config : ConnectionConfig) (indexName : String)
    (request : List (String × Json)) : Except String HttpRequestSpec :=
  match validateIndexName indexName with
  | Except.error e => Except.error e
  | Except.ok _ =>
    match (Json.obj request).getField "id" with
    | some (Json.str s) =>
        if s = "" then Except.error "Vector ID is required and must be a string"
        else
          Except.ok (buildRequest config ("indexes/" ++ indexName ++ "/query") "POST"
            (some (Json.obj (setField request "vector" (Json.str s)))))
    | _ => Except.error "Vector ID is required and must be a string"

/-- The conditional `metadata` entry of a formatted vector: copied only
when present and truthy. -/
def metaPart (vector : Json) : List (String × Json) :=
  match vector.getField "metadata" with
  | some m => if m.truthy then [("metadata", m)] else []
  | none => []

/-- The conditional `namespace` entry of a formatted vector: copied only
when present and truthy, coerced with `String(...)`. -/
def nsPart (vector : Json) : List (String × Json) :=
  match vector.getField "namespace" with
  | some ns => if ns.truthy then [("namespace", Json.str (jsToStr ns))] else []
  | none => []

/-- Success payload of one `formatVectors` iteration: `id` coerced with
`String(...)`, `values` passed through, `metadata` and `namespace` added
only when truthy. -/
def mkFormatted (idj : Json) (vals : List Json) (vector : Json) : Json :=
  Json.obj ([("id", Json.str (jsToStr idj)), ("values", Json.arr vals)]
    ++ metaPart vector ++ nsPart vector)

/-- JS `typeof vector === 'object' && vector` as used by `formatVectors`:
objects and arrays qualify, `null` fails the truthiness half, primitives
fail the typeof half. -/
def isObjectLike : Json → Bool
  | Json.obj _ => true
  | Json.arr _ => true
  | _ => false

/-- One iteration of `CloudflareVectorizeUtils.formatVectors`: object
check, truthy-id check, values-array check (element types never
inspected), then the formatted payload. -/
def formatVector (index : Nat) (vector : Json) : Except String Json :=
  if isObjectLike vector = false then
    Except.error ("Vector at index " ++ toString index ++ " must be an object")
  else
    match vector.getField "id" with
    | some idj =>
      if idj.truthy = false then
        Except.error ("Vector at index " ++ toString index ++ " must have an \x27id\x27 field")
      else
        match vector.getField "values" with
        | some (Json.arr vals) => Except.ok (mkFormatted idj vals vector)
        | _ => Except.error ("Vector at index " ++ toString index
            ++ " must have a \x27values\x27 array")
    | none => Except.error ("Vector at index " ++ toString index
        ++ " must have an \x27id\x27 field")

/-- The indexed `vectors.map((vector, index) => ...)` of `formatVectors`,
stopping at the first thrown error. -/
def formatVectorsGo (index : Nat) (vectors : List Json) : Except String (List Json) :=
  match vectors with
  | [] => Except.ok []
  | v :: vs =>
    match formatVector index v with
    | Except.error e => Except.error e
    | Except.ok w =>
      match formatVectorsGo (index + 1) vs with
      | Except.error e => Except.error e
      | Except.ok ws => Except.ok (w :: ws)

/-- `CloudflareVectorizeUtils.formatVectors`. -/
def formatVectors (vectors : List Json) : Except String (List Json) :=
  formatVectorsGo 0 vectors

/-- The indexed loop of `batchVectors` (`for (let i = 0; i < length; i +=
batchSize)`), with enough fuel to cover every terminating run; each
iteration pushes `vectors.slice(i, i + batchSize)`. -/
def batchGo {α : Type} (vectors : List α) (batchSize : Nat) : Nat → Nat → List (List α)
  | 0, _ => []
  | fuel + 1, i =>
      if i < vectors.length then
        (vectors.drop i).take batchSize :: batchGo vectors batchSize fuel (i + batchSize)
      else []

/-- `CloudflareVectorizeUtils.batchVectors`, with the source's default
batch size of 1000; `vectors.length + 1` iterations bound every
terminating run of the loop. -/
def batchVectors {α : Type} (vectors : List α) (batchSize : Nat := 1000) :
    List (List α) :=
  batchGo vectors batchSize (vectors.length + 1) 0

/-- Step-indexed run of the `batchVectors` loop, `none` when the fuel runs
out before the loop exits: `∃ fuel` with a `some` result is exactly
termination of the JS loop. -/
def batchGoFuel {α : Type} (vectors : List α) (batchSize : Nat) :
    Nat → Nat → Option (List (List α))
  | 0, _ => none
  | fuel + 1, i =>
      if i < vectors.length then
        match batchGoFuel vectors batchSize fuel (i + batchSize) with
        | none => none
        | some rest => some ((vectors.drop i).take batchSize :: rest)
      else some []

/-- Structural view of the `batchVectors` loop: the same chunking driven
by the remaining suffix instead of the loop index. -/
def chunksAux {α : Type} (n : Nat) : Nat → List α → List (List α)
  | 0, _ => []
  | fuel + 1, xs => if xs.isEmpty then [] else xs.take n :: chunksAux n fuel (xs.drop n)

/-- Does the `values` field hold an array? The operative half of the
source's `values` check (arrays are always truthy). -/
def valuesFieldIsArr (v : Json) : Bool :=
  match v.getField "values" with
  | some (Json.arr _) => true
  | _ => false

/-- Does the dimension guard of `validateVectorDimensions` pass: no
expected dimensionality, a zero (JS-falsy) one, or a matching length. -/
def dimsOk (expectedDimensions : Option Nat) (vals : List Json) : Bool :=
  match expectedDimensions with
  | some d => if d = 0 then true else if vals.length = d then true else false
  | none => true

/-- Does the id check of `validateVectorDimensions` pass: a non-empty
string id. -/
def vectorIdOk (v : Json) : Bool :=
  match v.getField "id" with
  | some (Json.str s) => if s = "" then false else true
  | _ => false

/-- A vector that `validateVectorDimensions` accepts: an array `values`
field (element types unchecked), a passing dimension guard, and a
non-empty string id. -/
def vectorOk (expectedDimensions : Option Nat) (v : Json) : Bool :=
  match v.getField "values" with
  | some (Json.arr vals) => dimsOk expectedDimensions vals && vectorIdOk v
  | _ => false

/-- A raw vector that `formatVectors` accepts: an object (or array) with
a truthy `id` and an array `values` field. -/
def goodRaw (v : Json) : Bool :=
  isObjectLike v && truthyOpt (v.getField "id") && valuesFieldIsArr v

/-- The per-element output of `formatVectors` on an accepted raw vector
(`Json.null` on a rejected one, never reached under `goodRaw`). -/
def fmtOut (v : Json) : Json :=
  match v.getField "id", v.getField "values" with
  | some idj, some (Json.arr vals) => mkFormatted idj vals v
  | _, _ => Json.null

/-- A vector object `{id, values}` as the claims build them. -/
def mkVector (s : String) (vals : List Json) : Json :=
  Json.obj [("id", Json.str s), ("values", Json.arr vals)]

/-- A concrete connection config for the closed instances. -/
def demoConfig : ConnectionConfig :=
  { accountId := "acct-1"
    apiToken := "secret-token"
    apiEndpoint := "https://api.cloudflare.com/client/v4" }

/-- The mocked failure envelope of scenario C:
`{success:false, errors:[{code:1003, message:"index not found"}]}`. -/
def scenarioCEnvelope : Json :=
  Json.obj [("success", Json.bool false),
    ("errors", Json.arr [Json.obj [("code", Json.num 1003),
      ("message", Json.str "index not found")]])]

theorem batchGo_eq_chunksAux {α : Type} (v : List α) (n : Nat) :
    ∀ fuel i, batchGo v n fuel i = chunksAux n fuel (v.drop i) := by
  intro fuel
  induction fuel with
  | zero => intro i; rfl
  | succ fuel ih =>
    intro i
    by_cases h : i < v.length
    · have hne : (v.drop i).isEmpty = false := by
        rw [List.isEmpty_eq_false_iff_exists_mem]
        have : v.drop i ≠ [] := by
          intro hnil
          rw [List.drop_eq_nil_iff] at hnil
          omega
        rcases List.exists_mem_of_ne_nil _ this with ⟨x, hx⟩
        exact ⟨x, hx⟩
      rw [batchGo, chunksAux, hne, if_pos h]
      simp only [Bool.false_eq_true, if_false]
      rw [ih (i + n), List.drop_drop]
    · have hemp : (v.drop i).isEmpty = true := by
        rw [List.isEmpty_iff, List.drop_eq_nil_iff]
        omega
      rw [batchGo, chunksAux, hemp, if_neg h]
      simp

theorem chunksAux_join {α : Type} (n : Nat) (hn : 1 ≤ n) :
    ∀ fuel (xs : List α), xs.length < fuel → (chunksAux n fuel xs).flatten = xs := by
  intro fuel
  induction fuel with
  | zero => intro xs h; omega
  | succ fuel ih =>
    intro xs h
    rw [chunksAux]
    by_cases hx : xs.isEmpty
    · rw [if_pos hx]
      rw [List.isEmpty_iff] at hx
      simp [hx]
    · rw [if_neg hx]
      rw [List.flatten_cons, ih (xs.drop n)]
      · exact List.take_append_drop n xs
      · have hne : xs ≠ [] := by
          intro hnil; rw [hnil] at hx; exact hx rfl
        have hpos : 0 < xs.length := List.length_pos.mpr hne
        have : (xs.drop n).length = xs.length - n := List.length_drop n xs
        omega

theorem chunksAux_chunk_le {α : Type} (n : Nat) :
    ∀ fuel (xs : List α) c, c ∈ chunksAux n fuel xs → c.length ≤ n := by
  intro fuel
  induction fuel with
  | zero => intro xs c hc; simp [chunksAux] at hc
  | succ fuel ih =>
    intro xs c hc
    rw [chunksAux] at hc
    by_cases hx : xs.isEmpty
    · rw [if_pos hx] at hc; simp at hc
    · rw [if_neg hx] at hc
      rcases List.mem_cons.mp hc with h | h
      · rw [h, List.length_take]; omega
      · exact ih _ _ h

theorem chunksAux_count {α : Type} (n : Nat) (hn : 1 ≤ n) :
    ∀ fuel (xs : List α), xs.length < fuel →
      (chunksAux n fuel xs).length = (xs.length + n - 1) / n := by
  intro fuel
  induction fuel with
  | zero => intro xs h; omega
  | succ fuel ih =>
    intro xs h
    rw [chunksAux]
    by_cases hx : xs.isEmpty
    · rw [if_pos hx]
      rw [List.isEmpty_iff] at hx
      subst hx
      simp only [List.length_nil]
      exact (Nat.div_eq_of_lt (by omega)).symm
    · rw [if_neg hx]
      have hne : xs ≠ [] := by
        intro hnil; rw [hnil] at hx; exact hx rfl
      have hpos : 0 < xs.length := List.length_pos.mpr hne
      have hdroplen : (xs.drop n).length = xs.length - n := List.length_drop n xs
      rw [List.length_cons, ih (xs.drop n) (by omega)]
      rw [hdroplen]
      by_cases hcase : xs.length ≤ n
      · have h1 : xs.length - n = 0 := by omega
        rw [h1]
        have h2 : (0 + n - 1) / n = 0 := Nat.div_eq_of_lt (by omega)
        rw [h2]
        have h3 : (xs.length + n - 1) / n = 1 := by
          apply Nat.div_eq_of_lt_le
          · omega
          · have : (1 + 1) * n = n + n := by ring
            omega
        omega
      · have h1 : xs.length - n + n - 1 + n = xs.length + n - 1 := by omega
        rw [← h1, Nat.add_div_right _ (by omega)]

theorem chunksAux_fuel_invariant {α : Type} (n : Nat) (hn : 1 ≤ n) :
    ∀ fuel fuel2 (xs : List α), xs.length < fuel → xs.length < fuel2 →
      chunksAux n fuel xs = chunksAux n fuel2 xs := by
  intro fuel
  induction fuel with
  | zero => intro fuel2 xs h _; omega
  | succ fuel ih =>
    intro fuel2 xs h h2
    cases fuel2 with
    | zero => omega
    | succ fuel2 =>
      rw [chunksAux, chunksAux]
      by_cases hx : xs.isEmpty
      · rw [if_pos hx, if_pos hx]
      · rw [if_neg hx, if_neg hx]
        have hne : xs ≠ [] := by
          intro hnil; rw [hnil] at hx; exact hx rfl
        have hpos : 0 < xs.length := List.length_pos.mpr hne
        have hdroplen : (xs.drop n).length = xs.length - n := List.length_drop n xs
        rw [ih fuel2 (xs.drop n) (by omega) (by omega)]

theorem batchGoFuel_zero_diverges {α : Type} (v : List α) (hv : v ≠ []) :
    ∀ fuel, batchGoFuel v 0 fuel 0 = none := by
  intro fuel
  induction fuel with
  | zero => rfl
  | succ fuel ih =>
    have hpos : 0 < v.length := List.length_pos.mpr hv
    rw [batchGoFuel, if_pos hpos]
    have h00 : 0 + 0 = 0 := rfl
    rw [h00, ih]

theorem batchGoFuel_terminates {α : Type} (v : List α) (n : Nat) (hn : 1 ≤ n) :
    ∀ fuel i, v.length - i < fuel → (batchGoFuel v n fuel i).isSome = true := by
  intro fuel
  induction fuel with
  | zero => intro i h; omega
  | succ fuel ih =>
    intro i h
    rw [batchGoFuel]
    by_cases hi : i < v.length
    · rw [if_pos hi]
      have hih := ih (i + n) (by omega)
      rcases Option.isSome_iff_exists.mp hih with ⟨rest, hrest⟩
      rw [hrest]
      rfl
    · rw [if_neg hi]
      rfl

theorem batchGoFuel_mono {α : Type} (v : List α) (n : Nat) :
    ∀ fuel k i r, batchGoFuel v n fuel i = some r →
      batchGoFuel v n (fuel + k) i = some r := by
  intro fuel
  induction fuel with
  | zero => intro k i r h; exact absurd h (by rw [batchGoFuel]; exact Option.noConfusion)
  | succ fuel ih =>
    intro k i r h
    rw [batchGoFuel] at h
    have hstep : fuel + 1 + k = (fuel + k) + 1 := by omega
    rw [hstep, batchGoFuel]
    by_cases hi : i < v.length
    · rw [if_pos hi] at h ⊢
      cases hrec : batchGoFuel v n fuel (i + n) with
      | none => rw [hrec] at h; exact absurd h Option.noConfusion
      | some rest =>
        rw [hrec] at h
        rw [ih k (i + n) rest hrec]
        exact h
    · rw [if_neg hi] at h ⊢
      exact h

theorem batchGoFuel_eq_batchGo {α : Type} (v : List α) (n : Nat) :
    ∀ fuel i r, batchGoFuel v n fuel i = some r → r = batchGo v n fuel i := by
  intro fuel
  induction fuel with
  | zero => intro i r h; exact absurd h (by rw [batchGoFuel]; exact Option.noConfusion)
  | succ fuel ih =>
    intro i r h
    rw [batchGoFuel] at h
    rw [batchGo]
    by_cases hi : i < v.length
    · rw [if_pos hi] at h ⊢
      cases hrec : batchGoFuel v n fuel (i + n) with
      | none => rw [hrec] at h; exact absurd h Option.noConfusion
      | some rest =>
        rw [hrec] at h
        have := ih (i + n) rest hrec
        injection h with h
        rw [← h, this]
    · rw [if_neg hi] at h
      injection h with h
      rw [← h, if_neg hi]

theorem batchGoFuel_result {α : Type} (v : List α) (n : Nat) :
    ∀ fuel r, batchGoFuel v n fuel 0 = some r → r = batchVectors v n := by
  intro fuel r h
  by_cases hn : 1 ≤ n
  · have hbig := batchGoFuel_mono v n fuel (v.length + 1) 0 r h
    have heq := batchGoFuel_eq_batchGo v n (fuel + (v.length + 1)) 0 r hbig
    rw [heq, batchVectors, batchGo_eq_chunksAux, batchGo_eq_chunksAux]
    exact chunksAux_fuel_invariant n hn _ _ _ (by simp only [List.drop_zero]; omega)
      (by simp only [List.drop_zero]; omega)
  · have hn0 : n = 0 := by omega
    subst hn0
    by_cases hv : v = []
    · subst hv
      have := batchGoFuel_eq_batchGo ([] : List α) 0 fuel 0 r h
      rw [this, batchVectors, batchGo_eq_chunksAux, batchGo_eq_chunksAux]
      cases fuel with
      | zero => rfl
      | succ fuel => rfl
    · rw [batchGoFuel_zero_diverges v hv fuel] at h
      exact absurd h Option.noConfusion

/-- Claim C6: for every finite vector list `v` and batch size `n ≥ 1`,
`batchVectors v n` partitions `v` into contiguous, order-preserving
chunks — their concatenation reproduces `v` exactly — every chunk has
length at most `n`, the number of chunks is `⌈v.length / n⌉`, and the
default batch size is 1000. -/
theorem claim_C6 {α : Type} (v : List α) (n : Nat) (hn : 1 ≤ n) :
    (batchVectors v n).flatten = v
    ∧ (∀ c ∈ batchVectors v n, c.length ≤ n)
    ∧ (batchVectors v n).length = (v.length + n - 1) / n
    ∧ batchVectors v = batchVectors v 1000 := by
  have key : batchVectors v n = chunksAux n (v.length + 1) v := by
    rw [batchVectors, batchGo_eq_chunksAux]
    rfl
  refine ⟨?_, ?_, ?_, rfl⟩
  · rw [key]; exact chunksAux_join n hn _ v (by omega)
  · rw [key]; intro c hc; exact chunksAux_chunk_le n _ v c hc
  · rw [key]; exact chunksAux_count n hn _ v (by omega)

/-- Witness for claim C6 at the concrete list `[10, 20, 30]` with batch
size 2. -/
theorem claim_C6_witness :
    (batchVectors [10, 20, 30] 2).flatten = [10, 20, 30]
    ∧ (∀ c ∈ batchVectors [10, 20, 30] 2, c.length ≤ 2)
    ∧ (batchVectors [10, 20, 30] 2).length = (([10, 20, 30] : List Nat).length + 2 - 1) / 2
    ∧ batchVectors [10, 20, 30] = batchVectors [10, 20, 30] 1000 :=
  claim_C6 [10, 20, 30] 2 (by decide)

/-- Claim C8: `describeIndex` is behaviorally identical to `getIndex` —
same result or error for every connection config, index name and
transport outcome, and the same assembled request. -/
theorem claim_C8 (config : ConnectionConfig) (indexName : String)
    (outcome : TransportOutcome) :
    describeIndex config indexName outcome = getIndex config indexName outcome
    ∧ describeIndexRequest config indexName = getIndexRequest config indexName :=
  ⟨rfl, rfl⟩

/-- Claim C10: the `batchVectors` loop terminates exactly when the batch
size is at least 1 or the vector list is empty — with batch size 0 and a
non-empty list the loop index never advances (`none` at every fuel) —
and every terminating run returns `batchVectors`. -/
theorem claim_C10 {α : Type} (v : List α) (n : Nat) :
    ((1 ≤ n ∨ v = []) ↔ ∃ fuel, (batchGoFuel v n fuel 0).isSome = true)
    ∧ (∀ fuel r, batchGoFuel v n fuel 0 = some r → r = batchVectors v n) := by
  constructor
  · constructor
    · intro h
      rcases h with hn | hv
      · exact ⟨v.length + 1, batchGoFuel_terminates v n hn (v.length + 1) 0 (by omega)⟩
      · subst hv
        refine ⟨1, ?_⟩
        rfl
    · rintro ⟨fuel, hf⟩
      by_contra hcon
      push_neg at hcon
      rcases hcon with ⟨hn, hv⟩
      have hn0 : n = 0 := by omega
      subst hn0
      rw [batchGoFuel_zero_diverges v hv fuel] at hf
      simp at hf
  · exact batchGoFuel_result v n

/-- Witness for claim C10 at the concrete list `[1, 2]` with batch size 2
and fuel 3. -/
theorem claim_C10_witness :
    (∃ fuel, (batchGoFuel [1, 2] 2 fuel 0).isSome = true)
    ∧ [[1, 2]] = batchVectors [1, 2] 2 :=
  ⟨(claim_C10 [1, 2] 2).1.mp (Or.inl (by decide)),
   (claim_C10 [1, 2] 2).2 3 [[1, 2]] (by decide)⟩

/-- Claim C3 counterexample: the claim says every single character other
than a lowercase-alphanumeric one fails with `InvalidArgument`, but the
source skips the pattern check for names of length at most one, so the
lone hyphen — not an alphanumeric character, and not matching the
pattern — is accepted. -/
theorem claim_C3_counterexample :
    validateIndexName "-" = Except.ok ()
    ∧ isIndexNameChar '-' = false
    ∧ matchesIndexNamePattern "-" = false :=
  ⟨rfl, by decide, by decide⟩

/-- Claim C3 (amended): `validateIndexName` succeeds on every string
matching `^[a-z0-9][a-z0-9-]*[a-z0-9]$` of JS length (UTF-16 code
units) at most 63 and on every string of JS length exactly one —
whatever that single code unit is, since the pattern check is skipped
at JS length at most one — and fails with `InvalidArgument` on the
empty string, on strings of JS length greater than 63, and on strings
of JS length greater than one that miss the pattern (which includes
every single astral character, whose JS length is two). -/
theorem claim_C3 (s : String) :
    (matchesIndexNamePattern s = true → utf16Length s ≤ 63 →
      validateIndexName s = Except.ok ())
    ∧ (utf16Length s = 1 → validateIndexName s = Except.ok ())
    ∧ (s.data = [] → exceptIsOk (validateIndexName s) = false)
    ∧ (utf16Length s > 63 → exceptIsOk (validateIndexName s) = false)
    ∧ (matchesIndexNamePattern s = false → 1 < utf16Length s →
      exceptIsOk (validateIndexName s) = false) := by
  refine ⟨?_, ?_, ?_, ?_, ?_⟩
  · intro hm hlen
    have hne : s.data ≠ [] := by
      intro hnil
      rw [matchesIndexNamePattern, hnil] at hm
      exact Bool.noConfusion hm
    rw [validateIndexName, if_neg hne, if_neg (by omega)]
    rw [if_neg]
    rintro ⟨h1, _⟩
    rw [hm] at h1
    exact Bool.noConfusion h1
  · intro hlen
    have hne : s.data ≠ [] := by
      intro hnil
      rw [utf16Length, hnil] at hlen
      simp at hlen
    rw [validateIndexName, if_neg hne, if_neg (by omega)]
    rw [if_neg]
    rintro ⟨_, h2⟩
    omega
  · intro hnil
    rw [validateIndexName, if_pos hnil]
    rfl
  · intro hlen
    have hne : s.data ≠ [] := by
      intro hnil
      rw [utf16Length, hnil] at hlen
      simp at hlen
    rw [validateIndexName, if_neg hne, if_pos hlen]
    rfl
  · intro hm hlen
    have hne : s.data ≠ [] := by
      intro hnil
      rw [utf16Length, hnil] at hlen
      simp at hlen
    rw [validateIndexName, if_neg hne]
    by_cases h63 : utf16Length s > 63
    · rw [if_pos h63]; rfl
    · rw [if_neg h63, if_pos ⟨hm, hlen⟩]; rfl

/-- Witness for claim C3 at concrete names: a pattern-matching name, a
one-code-unit name, an uppercase name, and a single astral character —
one codepoint but two UTF-16 code units, so the pattern guard runs and
rejects it. -/
theorem claim_C3_witness :
    validateIndexName "docs-1" = Except.ok ()
    ∧ validateIndexName "a" = Except.ok ()
    ∧ exceptIsOk (validateIndexName "Docs") = false
    ∧ exceptIsOk (validateIndexName "😀") = false :=
  ⟨(claim_C3 "docs-1").1 (by decide) (by decide),
   (claim_C3 "a").2.1 (by decide),
   (claim_C3 "Docs").2.2.2.2 (by decide) (by decide),
   (claim_C3 "😀").2.2.2.2 (by decide) (by decide)⟩

theorem vectorIdCheck_ok_iff (v : Json) :
    vectorIdCheck v = Except.ok () ↔ vectorIdOk v = true := by
  rw [vectorIdCheck, vectorIdOk]
  cases h : v.getField "id" with
  | none => simp
  | some j =>
    cases j with
    | str s =>
      by_cases hs : s = ""
      · simp [hs]
      · simp [hs]
    | null => simp
    | bool b => simp
    | num q => simp
    | arr l => simp
    | obj l => simp

theorem validateVector_ok_iff (ed : Option Nat) (v : Json) :
    validateVector ed v = Except.ok () ↔ vectorOk ed v = true := by
  rw [validateVector, vectorOk]
  cases hv : v.getField "values" with
  | none => simp
  | some j =>
    cases j with
    | arr vals =>
      cases ed with
      | none => simp [dimsOk, vectorIdCheck_ok_iff]
      | some d =>
        by_cases hd : d = 0
        · simp [dimsOk, hd, vectorIdCheck_ok_iff]
        · by_cases hlen : vals.length = d
          · simp [dimsOk, hd, hlen, vectorIdCheck_ok_iff]
          · simp [dimsOk, hd, hlen]
    | null => simp
    | bool b => simp
    | num q => simp
    | str s => simp
    | obj l => simp

theorem validateVectorDimensions_ok_iff (vectors : List Json) (ed : Option Nat) :
    validateVectorDimensions vectors ed = Except.ok ()
      ↔ ∀ v ∈ vectors, vectorOk ed v = true := by
  induction vectors with
  | nil => simp [validateVectorDimensions]
  | cons v vs ih =>
    rw [validateVectorDimensions]
    cases hv : validateVector ed v with
    | error e =>
      have : vectorOk ed v ≠ true := by
        intro hok
        rw [← validateVector_ok_iff] at hok
        rw [hv] at hok
        exact Except.noConfusion hok
      simp [this]
    | ok u =>
      cases u
      have : vectorOk ed v = true := (validateVector_ok_iff ed v).mp hv
      simp [this, ih]

/-- Claim C4 counterexample: the claim says a `values` sequence
containing non-numeric elements is rejected with `InvalidArgument`, but
the source only tests `Array.isArray` and never looks at the elements, so
a vector whose `values` is the array `["a"]` passes validation. -/
theorem claim_C4_counterexample :
    validateVectorDimensions [mkVector "v1" [Json.str "a"]] none = Except.ok () := rfl

/-- Claim C4 (amended): for every vector list and optional expected
dimensionality, `validateVectorDimensions` succeeds exactly when every
vector has an array `values` field — element types are never inspected,
so non-numeric entries are accepted — passes the dimension guard (active
only when the expected dimensionality is supplied and non-zero), and has
a non-empty string id; a vector with an array `values` of the wrong
length fails with `DimensionMismatch` naming the offending vector id, a
vector without an array `values` fails with `InvalidArgument` over the
`values` field, and one with a bad id fails with `InvalidArgument` over
the id. -/
theorem claim_C4 (vectors : List Json) (ed : Option Nat) :
    (validateVectorDimensions vectors ed = Except.ok ()
      ↔ ∀ v ∈ vectors, vectorOk ed v = true)
    ∧ (∀ (s : String) (vals : List Json) (d : Nat), d ≠ 0 → vals.length ≠ d →
        validateVector (some d) (mkVector s vals)
          = Except.error ("Vector " ++ s ++ " has " ++ toString vals.length
              ++ " dimensions, expected " ++ toString d))
    ∧ (∀ v : Json, valuesFieldIsArr v = false →
        validateVector ed v = Except.error ("Vector " ++ jsTemplate (v.getField "id")
          ++ " must have a \x27values\x27 array"))
    ∧ (∀ (v : Json) (vals : List Json), v.getField "values" = some (Json.arr vals) →
        dimsOk ed vals = true → vectorIdOk v = false →
        validateVector ed v = Except.error "All vectors must have a valid string ID") := by
  refine ⟨validateVectorDimensions_ok_iff vectors ed, ?_, ?_, ?_⟩
  · intro s vals d hd hlen
    have hv : (mkVector s vals).getField "values" = some (Json.arr vals) := rfl
    have hid : (mkVector s vals).getField "id" = some (Json.str s) := rfl
    simp only [validateVector, hv, hid, if_neg hd, if_neg hlen]
    rfl
  · intro v hbad
    rw [valuesFieldIsArr] at hbad
    rw [validateVector]
    cases hv : v.getField "values" with
    | none => rfl
    | some j =>
      rw [hv] at hbad
      cases j with
      | arr vals => exact Bool.noConfusion hbad
      | null => rfl
      | bool b => rfl
      | num q => rfl
      | str s => rfl
      | obj l => rfl
  · intro v vals hv hdims hid
    have hidc : vectorIdCheck v = Except.error "All vectors must have a valid string ID" := by
      rw [vectorIdCheck]
      rw [vectorIdOk] at hid
      cases h : v.getField "id" with
      | none => rfl
      | some j =>
        rw [h] at hid
        cases j with
        | str s =>
          by_cases hs : s = ""
          · simp [hs]
          · simp [hs] at hid
        | null => rfl
        | bool b => rfl
        | num q => rfl
        | arr l => rfl
        | obj l => rfl
    cases ed with
    | none =>
      simp only [validateVector, hv]
      exact hidc
    | some d =>
      simp only [dimsOk] at hdims
      by_cases hd : d = 0
      · simp only [validateVector, hv, if_pos hd]
        exact hidc
      · simp only [if_neg hd] at hdims
        by_cases hlen : vals.length = d
        · simp only [validateVector, hv, if_neg hd, if_pos hlen]
          exact hidc
        · simp only [if_neg hlen] at hdims
          exact Bool.noConfusion hdims

/-- Witness for claim C4: a passing vector list under expected
dimensionality 3, and the `DimensionMismatch` message for a two-entry
`values` against expected dimensionality 3. -/
theorem claim_C4_witness :
    (validateVectorDimensions [mkVector "v1" [Json.num 1, Json.num 2, Json.num 3]] (some 3)
      = Except.ok ())
    ∧ validateVector (some 3) (mkVector "v1" [Json.num 1, Json.num 2])
        = Except.error "Vector v1 has 2 dimensions, expected 3" :=
  ⟨(claim_C4 [mkVector "v1" [Json.num 1, Json.num 2, Json.num 3]] (some 3)).1.mpr
      (by intro v hv; simp at hv; subst hv; rfl),
   by
     have h := (claim_C4 [] (some 3)).2.1 "v1" [Json.num 1, Json.num 2] 3
       (by decide) (by decide)
     simpa using h⟩

/-- Claim C2 counterexample: the claim says the insert call with the
two-entry `values` fails with `DimensionMismatch` before any network
call, but `insertVectors` passes no expected dimensionality to
`validateVectorDimensions`, so validation succeeds and the insert
request is assembled. -/
theorem claim_C2_counterexample :
    exceptIsOk (insertVectorsRequest demoConfig "docs-1"
      [mkVector "v1" [Json.num 0.1, Json.num 0.2]]) = true := rfl

/-- Claim C2 (amended): `insertVectors` on index `docs-1` with the single
vector `{id:"v1", values:[0.1,0.2,0.3]}` passes validation and hands the
service outcome through; since `insertVectors` accepts no expected
dimensionality and runs only the structural checks, the same call with
`values:[0.1,0.2]` also passes — the dimension check lives only in
`validateVectorDimensions`, which when invoked directly with expected
dimensionality 3 on that vector fails with `DimensionMismatch` naming
`v1`, before any network call. -/
theorem validateVector_dim_error (s : String) (vals : List Json) (d n : Nat)
    (hn : vals.length = n) (hd : d ≠ 0) (hlen : n ≠ d) :
    validateVector (some d) (mkVector s vals)
      = Except.error ("Vector " ++ s ++ " has " ++ toString n
          ++ " dimensions, expected " ++ toString d) := by
  have hv : (mkVector s vals).getField "values" = some (Json.arr vals) := rfl
  have hid : (mkVector s vals).getField "id" = some (Json.str s) := rfl
  subst hn
  simp only [validateVector, hv, hid, if_neg hd, if_neg hlen]
  rfl

theorem claim_C2 (config : ConnectionConfig) (a b c : Rat) :
    insertVectorsRequest config "docs-1" [mkVector "v1" [Json.num a, Json.num b, Json.num c]]
      = Except.ok (buildRequest config "indexes/docs-1/insert" "POST"
          (some (Json.obj [("vectors",
            Json.arr [mkVector "v1" [Json.num a, Json.num b, Json.num c]])])))
    ∧ (∀ outcome, insertVectors config "docs-1"
        [mkVector "v1" [Json.num a, Json.num b, Json.num c]] outcome
          = executeRequestOutcome outcome)
    ∧ insertVectorsRequest config "docs-1" [mkVector "v1" [Json.num a, Json.num b]]
      = Except.ok (buildRequest config "indexes/docs-1/insert" "POST"
          (some (Json.obj [("vectors",
            Json.arr [mkVector "v1" [Json.num a, Json.num b]])])))
    ∧ validateVectorDimensions [mkVector "v1" [Json.num a, Json.num b]] (some 3)
      = Except.error "Vector v1 has 2 dimensions, expected 3" := by
  refine ⟨rfl, fun _ => rfl, rfl, ?_⟩
  have h := validateVector_dim_error "v1" [Json.num a, Json.num b] 3 2
    (by simp) (by decide) (by decide)
  simp only [validateVectorDimensions, h]
  rfl

/-- Claim C1 counterexample: the claim says the raw response body is
returned exactly when no `result` field exists, but the source returns
`response.result || response`, so a present-but-falsy `result` — here
the number 0 — also falls back to the raw body. -/
theorem claim_C1_counterexample :
    (Json.obj [("success", Json.bool true), ("result", Json.num 0)]).getField "result"
      = some (Json.num 0)
    ∧ mapEnvelope (Json.obj [("success", Json.bool true), ("result", Json.num 0)])
      = Except.ok (Json.obj [("success", Json.bool true), ("result", Json.num 0)])
    ∧ Json.obj [("success", Json.bool true), ("result", Json.num 0)] ≠ Json.num 0 :=
  ⟨rfl, rfl, fun h => Json.noConfusion h⟩

/-- Claim C1 (amended): if the envelope's `success` field is strictly
`false`, `executeRequest` fails with an error whose message carries the
concatenated messages of the `errors` array — so `getIndex "missing"` on
the scenario-C envelope fails with a message containing "index not
found"; if `success` is not strictly `false`, `executeRequest` returns
the `result` field when it is present and truthy, falling back to the
raw response body exactly when the `result` field is absent or JS-falsy
(null, false, 0, or the empty string). -/
theorem claim_C1 (e : Json) (l : List Json) (r : Json) :
    (e.getField "success" = some (Json.bool false) →
      e.getField "errors" = some (Json.arr l) →
      mapEnvelope e = Except.error ("Cloudflare API error: " ++ concatMessages l))
    ∧ (e.getField "success" ≠ some (Json.bool false) →
      e.getField "result" = some r → r.truthy = true →
      mapEnvelope e = Except.ok r)
    ∧ (e.getField "success" ≠ some (Json.bool false) →
      truthyOpt (e.getField "result") = false →
      mapEnvelope e = Except.ok e)
    ∧ (∀ config : ConnectionConfig,
        getIndex config "missing" (TransportOutcome.response scenarioCEnvelope)
          = Except.error ("Cloudflare API error: " ++ "index not found")) := by
  refine ⟨?_, ?_, ?_, fun _ => rfl⟩
  · intro h1 h2
    simp only [mapEnvelope, h1, errorsArray, h2]
  · intro hne hr ht
    rw [mapEnvelope]
    split
    · exact absurd (by assumption) hne
    · rw [hr]
      simp [ht]
  · intro hne hfalsy
    rw [mapEnvelope]
    split
    · exact absurd (by assumption) hne
    · cases hr : e.getField "result" with
      | none => rfl
      | some r0 =>
        rw [hr] at hfalsy
        simp only [truthyOpt] at hfalsy
        simp [hfalsy]

/-- Witness for claim C1: the scenario-C failure envelope, a truthy
`result`, and an absent `result`. -/
theorem claim_C1_witness :
    mapEnvelope scenarioCEnvelope
      = Except.error ("Cloudflare API error: "
          ++ concatMessages [Json.obj [("code", Json.num 1003),
              ("message", Json.str "index not found")]])
    ∧ mapEnvelope (Json.obj [("success", Json.bool true),
        ("result", Json.str "payload")])
      = Except.ok (Json.str "payload")
    ∧ mapEnvelope (Json.obj [("success", Json.bool true)])
      = Except.ok (Json.obj [("success", Json.bool true)]) := by
  refine ⟨?_, ?_, ?_⟩
  · exact (claim_C1 scenarioCEnvelope
      [Json.obj [("code", Json.num 1003), ("message", Json.str "index not found")]]
      Json.null).1 rfl rfl
  · apply (claim_C1 (Json.obj [("success", Json.bool true),
      ("result", Json.str "payload")]) [] (Json.str "payload")).2.1
    · intro h
      exact absurd (show some (Json.bool true) = some (Json.bool false) from h) (by simp)
    · rfl
    · rfl
  · apply (claim_C1 (Json.obj [("success", Json.bool true)]) []
      (Json.obj [("success", Json.bool true)])).2.2.1
    · intro h
      exact absurd (show some (Json.bool true) = some (Json.bool false) from h) (by simp)
    · rfl

theorem goodRaw_destruct (v : Json) (h : goodRaw v = true) :
    isObjectLike v = true
    ∧ (∃ idj, v.getField "id" = some idj ∧ idj.truthy = true)
    ∧ ∃ vals, v.getField "values" = some (Json.arr vals) := by
  rw [goodRaw] at h
  simp only [Bool.and_eq_true] at h
  obtain ⟨⟨hobj, hid⟩, hvals⟩ := h
  refine ⟨hobj, ?_, ?_⟩
  · cases hidf : v.getField "id" with
    | none =>
      rw [hidf] at hid
      simp [truthyOpt] at hid
    | some idj =>
      rw [hidf] at hid
      simp only [truthyOpt] at hid
      exact ⟨idj, rfl, hid⟩
  · rw [valuesFieldIsArr] at hvals
    cases hvf : v.getField "values" with
    | none =>
      rw [hvf] at hvals
      simp at hvals
    | some j =>
      rw [hvf] at hvals
      cases j with
      | arr vals => exact ⟨vals, rfl⟩
      | null => simp at hvals
      | bool b => simp at hvals
      | num q => simp at hvals
      | str s => simp at hvals
      | obj l => simp at hvals

theorem fmtOut_eq (v idj : Json) (vals : List Json)
    (hid : v.getField "id" = some idj)
    (hv : v.getField "values" = some (Json.arr vals)) :
    fmtOut v = mkFormatted idj vals v := by
  simp only [fmtOut, hid, hv]

theorem lookup_append_of_none {β : Type} (k : String) (l1 l2 : List (String × β))
    (h : List.lookup k l1 = none) : List.lookup k (l1 ++ l2) = List.lookup k l2 := by
  induction l1 with
  | nil => rfl
  | cons p rest ih =>
    rcases p with ⟨k0, v0⟩
    rw [List.cons_append]
    rw [List.lookup] at h ⊢
    cases hbe : (k == k0) with
    | true =>
      rw [hbe] at h
      exact Option.noConfusion h
    | false =>
      rw [hbe] at h
      exact ih h

theorem lookup_metaPart_ns (v : Json) :
    List.lookup "namespace" (metaPart v) = none := by
  rw [metaPart]
  cases hm : v.getField "metadata" with
  | none => rfl
  | some m =>
    cases htm : m.truthy with
    | true =>
      simp only [htm]
      rfl
    | false =>
      simp only [htm]
      rfl

theorem lookup_nsPart_meta (v : Json) :
    List.lookup "metadata" (nsPart v) = none := by
  rw [nsPart]
  cases hn : v.getField "namespace" with
  | none => rfl
  | some ns =>
    cases htn : ns.truthy with
    | true =>
      simp only [htn]
      rfl
    | false =>
      simp only [htn]
      rfl

theorem mkFormatted_fields (idj : Json) (vals : List Json) (v : Json) :
    (mkFormatted idj vals v).getField "id" = some (Json.str (jsToStr idj))
    ∧ (mkFormatted idj vals v).getField "values" = some (Json.arr vals)
    ∧ (mkFormatted idj vals v).getField "metadata"
        = (if truthyOpt (v.getField "metadata") = true then v.getField "metadata" else none)
    ∧ (mkFormatted idj vals v).getField "namespace"
        = (match v.getField "namespace" with
           | some ns => if ns.truthy = true then some (Json.str (jsToStr ns)) else none
           | none => none) := by
  refine ⟨rfl, rfl, ?_, ?_⟩
  · rw [mkFormatted, Json.getField, List.append_assoc,
      lookup_append_of_none "metadata"
        [("id", Json.str (jsToStr idj)), ("values", Json.arr vals)]
        (metaPart v ++ nsPart v) rfl]
    rw [metaPart]
    cases hm : v.getField "metadata" with
    | none => exact lookup_nsPart_meta v
    | some m =>
      cases htm : m.truthy with
      | true =>
        simp only [truthyOpt, htm]
        rfl
      | false =>
        simp only [truthyOpt, htm]
        exact lookup_nsPart_meta v
  · rw [mkFormatted, Json.getField, List.append_assoc,
      lookup_append_of_none "namespace"
        [("id", Json.str (jsToStr idj)), ("values", Json.arr vals)]
        (metaPart v ++ nsPart v) rfl,
      lookup_append_of_none "namespace" (metaPart v) (nsPart v) (lookup_metaPart_ns v)]
    rw [nsPart]
    cases hn : v.getField "namespace" with
    | none => rfl
    | some ns =>
      cases htn : ns.truthy with
      | true =>
        simp only [htn]
        rfl
      | false =>
        simp only [htn]
        rfl

theorem formatVector_ok (v : Json) (hv : goodRaw v = true) (i : Nat) :
    formatVector i v = Except.ok (fmtOut v) := by
  obtain ⟨hobj, ⟨idj, hidf, ht⟩, vals, hvf⟩ := goodRaw_destruct v hv
  rw [formatVector, fmtOut_eq v idj vals hidf hvf, hobj, hidf, hvf]
  simp [ht]

theorem formatVector_err (v : Json) (hv : goodRaw v = false) (i : Nat) :
    ∃ t, formatVector i v = Except.error ("Vector at index " ++ toString i ++ t) := by
  rw [formatVector]
  cases hobj : isObjectLike v with
  | false => exact ⟨" must be an object", rfl⟩
  | true =>
    cases hidf : v.getField "id" with
    | none => exact ⟨" must have an \x27id\x27 field", rfl⟩
    | some idj =>
      cases ht : idj.truthy with
      | false => exact ⟨" must have an \x27id\x27 field", by simp [ht]⟩
      | true =>
        have hvals : valuesFieldIsArr v = false := by
          rw [goodRaw, hobj, hidf] at hv
          simp only [truthyOpt, ht] at hv
          simpa using hv
        rw [valuesFieldIsArr] at hvals
        cases hvf : v.getField "values" with
        | none => exact ⟨" must have a \x27values\x27 array", by simp [ht]⟩
        | some j =>
          rw [hvf] at hvals
          cases j with
          | arr vals => simp at hvals
          | null => exact ⟨" must have a \x27values\x27 array", by simp [ht]⟩
          | bool b => exact ⟨" must have a \x27values\x27 array", by simp [ht]⟩
          | num q => exact ⟨" must have a \x27values\x27 array", by simp [ht]⟩
          | str s => exact ⟨" must have a \x27values\x27 array", by simp [ht]⟩
          | obj l => exact ⟨" must have a \x27values\x27 array", by simp [ht]⟩

theorem formatVectorsGo_ok (vs : List Json) :
    ∀ i, (∀ v ∈ vs, goodRaw v = true) →
      formatVectorsGo i vs = Except.ok (vs.map fmtOut) := by
  induction vs with
  | nil => intro i h; rfl
  | cons v rest ih =>
    intro i h
    rw [formatVectorsGo, formatVector_ok v (h v (by simp)) i,
      ih (i + 1) (fun u hu => h u (by simp [hu]))]
    rfl

theorem formatVectorsGo_err (pre : List Json) :
    ∀ (v : Json) (post : List Json) (i : Nat),
      (∀ u ∈ pre, goodRaw u = true) → goodRaw v = false →
      ∃ t, formatVectorsGo i (pre ++ v :: post)
        = Except.error ("Vector at index " ++ toString (i + pre.length) ++ t) := by
  induction pre with
  | nil =>
    intro v post i hpre hv
    rcases formatVector_err v hv i with ⟨t, ht⟩
    refine ⟨t, ?_⟩
    rw [List.nil_append, formatVectorsGo, ht]
    rfl
  | cons u pre2 ih =>
    intro v post i hpre hv
    rcases ih v post (i + 1) (fun w hw => hpre w (by simp [hw])) hv with ⟨t, ht⟩
    refine ⟨t, ?_⟩
    rw [List.cons_append, formatVectorsGo, formatVector_ok u (hpre u (by simp)) i, ht]
    have harith : i + 1 + pre2.length = i + (u :: pre2).length := by
      simp only [List.length_cons]
      omega
    rw [harith]

/-- Claim C7 counterexample: the claim says `metadata` is copied to the
output exactly when present on the input element, but the source copies
it only when truthy, so a present-but-null `metadata` is dropped. -/
theorem claim_C7_counterexample :
    formatVectors [Json.obj [("id", Json.str "v1"), ("values", Json.arr [Json.num 1]),
        ("metadata", Json.null)]]
      = Except.ok [Json.obj [("id", Json.str "v1"), ("values", Json.arr [Json.num 1])]]
    ∧ (Json.obj [("id", Json.str "v1"), ("values", Json.arr [Json.num 1]),
        ("metadata", Json.null)]).getField "metadata" = some Json.null
    ∧ (Json.obj [("id", Json.str "v1"),
        ("values", Json.arr [Json.num 1])]).getField "metadata" = none :=
  ⟨rfl, rfl, rfl⟩

/-- Claim C7 (amended): on an input sequence whose elements are all
objects with a truthy `id` and an array `values` field — element types
inside `values` are never inspected — `formatVectors` returns an
equal-length, order-preserving sequence in which each output `id` is the
string coercion of the input id, each output `values` equals the input
`values`, and `metadata` and `namespace` are copied exactly when present
with a truthy value (`namespace` string-coerced; absent or falsy fields
are omitted); on the first element that is not a truthy object, lacks a
truthy `id`, or whose `values` is not an array, it fails with
`InvalidArgument` naming that element's index. -/
theorem claim_C7 (vs : List Json) :
    ((∀ v ∈ vs, goodRaw v = true) → formatVectors vs = Except.ok (vs.map fmtOut))
    ∧ (∀ v idj, goodRaw v = true → v.getField "id" = some idj →
        (fmtOut v).getField "id" = some (Json.str (jsToStr idj)))
    ∧ (∀ v, goodRaw v = true → (fmtOut v).getField "values" = v.getField "values")
    ∧ (∀ v, goodRaw v = true →
        (fmtOut v).getField "metadata"
          = (if truthyOpt (v.getField "metadata") = true then v.getField "metadata" else none))
    ∧ (∀ v, goodRaw v = true →
        (fmtOut v).getField "namespace"
          = (match v.getField "namespace" with
             | some ns => if ns.truthy = true then some (Json.str (jsToStr ns)) else none
             | none => none))
    ∧ (∀ pre v post, (∀ u ∈ pre, goodRaw u = true) → goodRaw v = false →
        ∃ t, formatVectors (pre ++ v :: post)
          = Except.error ("Vector at index " ++ toString pre.length ++ t)) := by
  refine ⟨fun h => formatVectorsGo_ok vs 0 h, ?_, ?_, ?_, ?_, ?_⟩
  · intro v idj hg hid
    obtain ⟨_, ⟨idj2, hid2, _⟩, vals, hvf⟩ := goodRaw_destruct v hg
    rw [fmtOut_eq v idj vals hid hvf]
    exact (mkFormatted_fields idj vals v).1
  · intro v hg
    obtain ⟨_, ⟨idj, hid, _⟩, vals, hvf⟩ := goodRaw_destruct v hg
    rw [fmtOut_eq v idj vals hid hvf, hvf]
    exact (mkFormatted_fields idj vals v).2.1
  · intro v hg
    obtain ⟨_, ⟨idj, hid, _⟩, vals, hvf⟩ := goodRaw_destruct v hg
    rw [fmtOut_eq v idj vals hid hvf]
    exact (mkFormatted_fields idj vals v).2.2.1
  · intro v hg
    obtain ⟨_, ⟨idj, hid, _⟩, vals, hvf⟩ := goodRaw_destruct v hg
    rw [fmtOut_eq v idj vals hid hvf]
    exact (mkFormatted_fields idj vals v).2.2.2
  · intro pre v post hpre hv
    have h := formatVectorsGo_err pre v post 0 hpre hv
    simpa using h

/-- Witness for claim C7: a well-formed raw vector carrying a namespace,
and a non-object element at index 1 after one good element. -/
theorem claim_C7_witness :
    formatVectors [Json.obj [("id", Json.str "v1"), ("values", Json.arr [Json.num 1]),
        ("namespace", Json.str "ns1")]]
      = Except.ok ([Json.obj [("id", Json.str "v1"), ("values", Json.arr [Json.num 1]),
          ("namespace", Json.str "ns1")]].map fmtOut)
    ∧ ∃ t, formatVectors ([Json.obj [("id", Json.str "v1"), ("values", Json.arr [Json.num 1])]]
          ++ Json.num 7 :: [])
        = Except.error ("Vector at index "
            ++ toString (List.length [Json.obj [("id", Json.str "v1"),
                ("values", Json.arr [Json.num 1])]]) ++ t) :=
  ⟨(claim_C7 [Json.obj [("id", Json.str "v1"), ("values", Json.arr [Json.num 1]),
        ("namespace", Json.str "ns1")]]).1
      (by intro v hv; simp at hv; subst hv; rfl),
   (claim_C7 []).2.2.2.2.2
      [Json.obj [("id", Json.str "v1"), ("values", Json.arr [Json.num 1])]]
      (Json.num 7) []
      (by intro u hu; simp at hu; subst hu; rfl) rfl⟩

theorem lookup_setField_self (l : List (String × Json)) (k : String) (v : Json) :
    List.lookup k (setField l k v) = some v := by
  induction l with
  | nil => simp [setField, List.lookup]
  | cons p rest ih =>
    rcases p with ⟨k0, v0⟩
    rw [setField]
    by_cases h : k0 = k
    · rw [if_pos h]
      simp [List.lookup]
    · rw [if_neg h]
      rw [List.lookup]
      have hbe : (k == k0) = false := by
        rw [beq_eq_false_iff_ne]
        intro he
        exact h he.symm
      rw [hbe]
      exact ih

theorem lookup_setField_ne (l : List (String × Json)) (k : String) (v : Json)
    (k2 : String) (hne : k2 ≠ k) :
    List.lookup k2 (setField l k v) = List.lookup k2 l := by
  have hbe : (k2 == k) = false := beq_eq_false_iff_ne.mpr hne
  induction l with
  | nil => simp [setField, List.lookup, hbe]
  | cons p rest ih =>
    rcases p with ⟨k0, v0⟩
    rw [setField]
    by_cases h : k0 = k
    · rw [if_pos h]
      subst h
      rw [List.lookup, List.lookup, hbe]
      exact ih
    · rw [if_neg h]
      rw [List.lookup, List.lookup]
      cases hbe2 : (k2 == k0) with
      | true => rfl
      | false => exact ih

/-- Claim C5: for every index name that validates and every query-by-id
request carrying a non-empty string id, `queryVectorById` issues a POST
to `indexes/{name}/query` — the shared query endpoint — whose body is
the request with the id substituted into the `vector` field (a string,
not a numeric array), every other field carried unchanged. -/
theorem claim_C5 (config : ConnectionConfig) (indexName : String)
    (request : List (String × Json)) (s : String)
    (hname : validateIndexName indexName = Except.ok ())
    (hid : List.lookup "id" request = some (Json.str s))
    (hs : s ≠ "") :
    queryVectorByIdRequest config indexName request
      = Except.ok (buildRequest config ("indexes/" ++ indexName ++ "/query") "POST"
          (some (Json.obj (setField request "vector" (Json.str s)))))
    ∧ (Json.obj (setField request "vector" (Json.str s))).getField "vector"
      = some (Json.str s)
    ∧ ∀ k, k ≠ "vector" →
        (Json.obj (setField request "vector" (Json.str s))).getField k
          = (Json.obj request).getField k := by
  refine ⟨?_, ?_, ?_⟩
  · simp only [queryVectorByIdRequest, hname, Json.getField, hid, if_neg hs]
  · simp only [Json.getField]
    exact lookup_setField_self request "vector" (Json.str s)
  · intro k hk
    simp only [Json.getField]
    exact lookup_setField_ne request "vector" (Json.str s) k hk

/-- Witness for claim C5, scenario D: `queryVectorById("docs-1",
{id:"v1", topK:5})` posts to `indexes/docs-1/query` with `vector:"v1"`
and `topK` unchanged. -/
theorem claim_C5_witness :
    queryVectorByIdRequest demoConfig "docs-1" [("id", Json.str "v1"), ("topK", Json.num 5)]
      = Except.ok (buildRequest demoConfig ("indexes/" ++ "docs-1" ++ "/query") "POST"
          (some (Json.obj (setField [("id", Json.str "v1"), ("topK", Json.num 5)]
            "vector" (Json.str "v1")))))
    ∧ (Json.obj (setField [("id", Json.str "v1"), ("topK", Json.num 5)]
        "vector" (Json.str "v1"))).getField "vector" = some (Json.str "v1") := by
  have h := claim_C5 demoConfig "docs-1" [("id", Json.str "v1"), ("topK", Json.num 5)] "v1"
    rfl rfl (by decide)
  exact ⟨h.1, h.2.1⟩

/-- Claim C9: error results are independent of the API token — two runs
differing only in the token map every transport outcome to identical
results and error messages, and the token reaches only the
`Authorization` header of the outgoing request. -/
theorem claim_C9 (c1 c2 : ConnectionConfig) (endpoint method : String)
    (body : Option Json) (outcome : TransportOutcome) (indexName : String)
    (vectors : List Json)
    (hacct : c1.accountId = c2.accountId) (hend : c1.apiEndpoint = c2.apiEndpoint) :
    (executeRequest c1 endpoint method body outcome).2
      = (executeRequest c2 endpoint method body outcome).2
    ∧ (executeRequest c1 endpoint method body outcome).1.url
      = (executeRequest c2 endpoint method body outcome).1.url
    ∧ (executeRequest c1 endpoint method body outcome).1.method
      = (executeRequest c2 endpoint method body outcome).1.method
    ∧ (executeRequest c1 endpoint method body outcome).1.contentType
      = (executeRequest c2 endpoint method body outcome).1.contentType
    ∧ (executeRequest c1 endpoint method body outcome).1.body
      = (executeRequest c2 endpoint method body outcome).1.body
    ∧ (executeRequest c1 endpoint method body outcome).1.authorization
      = "Bearer " ++ c1.apiToken
    ∧ (executeRequest c2 endpoint method body outcome).1.authorization
      = "Bearer " ++ c2.apiToken
    ∧ getIndex c1 indexName outcome = getIndex c2 indexName outcome
    ∧ insertVectors c1 indexName vectors outcome
      = insertVectors c2 indexName vectors outcome := by
  refine ⟨rfl, ?_, rfl, rfl, rfl, rfl, rfl, ?_, ?_⟩
  · simp [executeRequest, buildRequest, hacct, hend]
  · rw [getIndex, getIndex, getIndexRequest, getIndexRequest]
    cases hv : validateIndexName indexName with
    | error e => rfl
    | ok u => rfl
  · rw [insertVectors, insertVectors, insertVectorsRequest, insertVectorsRequest]
    cases hv : validateIndexName indexName with
    | error e => rfl
    | ok u =>
      cases hw : validateVectorDimensions vectors none with
      | error e => rfl
      | ok w => rfl

/-- Witness for claim C9: two configs differing only in the token map a
transport failure to the same error. -/
theorem claim_C9_witness :
    (executeRequest demoConfig "indexes/x" "GET" none (TransportOutcome.failure "boom")).2
      = (executeRequest (⟨"acct-1", "other-token",
          "https://api.cloudflare.com/client/v4"⟩ : ConnectionConfig) "indexes/x" "GET" none
          (TransportOutcome.failure "boom")).2
    ∧ (executeRequest demoConfig "indexes/x" "GET" none
        (TransportOutcome.failure "boom")).1.authorization
      = "Bearer " ++ demoConfig.apiToken := by
  have h := claim_C9 demoConfig
    (⟨"acct-1", "other-token", "https://api.cloudflare.com/client/v4"⟩ : ConnectionConfig)
    "indexes/x" "GET" none (TransportOutcome.failure "boom") "docs-1" [] rfl rfl
  exact ⟨h.1, h.2.2.2.2.2.1⟩
